import Mathlib

/-!
Verification development for the crossing-ways validation engine
(src/modules/services/keepRight.js, function validationCrossingWays).

The engine is shallowly embedded: tag maps are association lists of
strings, node locations are pairs of rationals, and the versioned
graph is a record of node, way and relation lists.  External
collaborators that are not part of the excerpted source (segment
intersection geometry, the spatial index, the localization service,
the generic midpoint and merge graph actions, the display label and
the derived vertical layer of a way) are modelled from the
specification; each such definition carries a doc comment that starts
with the words Modelled from the spec.
-/

namespace CrossingWays

/-- Tag maps are association lists from keys to values; lookup returns the
first binding, matching a JS object with string keys. -/
abbrev Tags := List (String × String)

/-- Lookup of a tag value; none models an undefined JS property. -/
def getTag : Tags → String → Option String
  | [], _ => none
  | p :: rest, k => if p.1 = k then some p.2 else getTag rest k

/-- Embeds hasTag: the key is present and its value is not the string no. -/
def hasTag (tags : Tags) (key : String) : Bool :=
  match getTag tags key with
  | none => false
  | some v => decide (v ≠ "no")

/-- Embeds the membership test list.indexOf(tags[key]), which is never a hit
when the key is undefined. -/
def tagValIn (tags : Tags) (key : String) (l : List String) : Bool :=
  match getTag tags key with
  | none => false
  | some v => decide (v ∈ l)

/-- Feature categories produced by the classifier; none is represented by
Option.none at use sites. -/
inductive FeatureType where
  | building
  | highway
  | railway
  | waterway
deriving DecidableEq, Repr

/-- Embeds the waterways allow list. -/
def waterways : List String := ["canal", "ditch", "drain", "river", "stream"]

/-- Embeds the ignoredHighways list. -/
def ignoredHighways : List String := ["rest_area", "services"]

/-- Embeds the ignoredRailways list. -/
def ignoredRailways : List String := ["train_wash"]

/-- Embeds getFeatureTypeForTags: classification of a tag map. -/
def getFeatureTypeForTags (tags : Tags) : Option FeatureType :=
  if hasTag tags ("building") then some FeatureType.building
  else if hasTag tags ("area") then none
  else if hasTag tags ("highway") && !tagValIn tags ("highway") ignoredHighways then
    some FeatureType.highway
  else if hasTag tags ("railway") && !tagValIn tags ("railway") ignoredRailways then
    some FeatureType.railway
  else if hasTag tags ("waterway") && tagValIn tags ("waterway") waterways then
    some FeatureType.waterway
  else none

/-- Graph node: identity and a 2D location with exact rational coordinates;
tags are carried for the connection node created by the connect action. -/
structure Node where
  id : String
  loc : ℚ × ℚ
  tags : Tags
deriving DecidableEq, Repr

/-- Graph way: identity, ordered node references and tags.  The layerValue
field is Modelled from the spec: the derived vertical layer returned by
way.layer(), 0 when untagged.  The label field is Modelled from the spec:
the display label of the external labelling collaborator. -/
structure Way where
  id : String
  nodes : List String
  tags : Tags
  layerValue : Int
  label : String
deriving DecidableEq, Repr

/-- Graph relation: identity, tags and member references; the label field is
Modelled from the spec like the one of Way. -/
structure Relation where
  id : String
  tags : Tags
  members : List String
  label : String
deriving DecidableEq, Repr

/-- The versioned feature graph consumed by the validator. -/
structure Graph where
  nodes : List Node
  ways : List Way
  relations : List Relation
deriving DecidableEq, Repr

/-- Entity variant used as the validation input. -/
inductive Entity where
  | node : Node → Entity
  | way : Way → Entity
  | rel : Relation → Entity
deriving DecidableEq, Repr

/-- Resolves a node id in the graph. -/
def Graph.findNode (g : Graph) (nid : String) : Option Node :=
  g.nodes.find? (fun n => decide (n.id = nid))

/-- Embeds graph.entity for node ids; referenced ids are assumed to resolve,
a missing id degrades to a placeholder node at the origin. -/
def Graph.entityNode (g : Graph) (nid : String) : Node :=
  (g.findNode nid).getD ⟨nid, ((0 : ℚ), (0 : ℚ)), []⟩

/-- Resolves a way id in the graph. -/
def Graph.findWay (g : Graph) (wid : String) : Option Way :=
  g.ways.find? (fun w => decide (w.id = wid))

/-- Embeds graph.childNodes. -/
def Graph.childNodes (g : Graph) (w : Way) : List Node :=
  w.nodes.map g.entityNode

/-- Embeds graph.parentRelations: relations having the way as a member. -/
def Graph.parentRelations (g : Graph) (w : Way) : List Relation :=
  g.relations.filter (fun r => decide (w.id ∈ r.members))

/-- A feature is a way or its parent relation, whichever carries the tags
that define the feature type. -/
inductive Feature where
  | ofWay : Way → Feature
  | ofRel : Relation → Feature
deriving DecidableEq, Repr

/-- Tags of a feature. -/
def Feature.tags : Feature → Tags
  | .ofWay w => w.tags
  | .ofRel r => r.tags

/-- Identity of a feature. -/
def Feature.id : Feature → String
  | .ofWay w => w.id
  | .ofRel r => r.id

/-- Display label of a feature. -/
def Feature.label : Feature → String
  | .ofWay w => w.label
  | .ofRel r => r.label

/-- Embeds getFeatureWithFeatureTypeTagsForWay: the way, or its first parent
relation whose tags classify to a feature type when the way itself does not. -/
def getFeatureWithFeatureTypeTagsForWay (w : Way) (g : Graph) : Feature :=
  if getFeatureTypeForTags w.tags = none then
    match (g.parentRelations w).find? (fun r => (getFeatureTypeForTags r.tags).isSome) with
    | some r => Feature.ofRel r
    | none => Feature.ofWay w
  else Feature.ofWay w

/-- Embeds tagsImplyIndoors. -/
def tagsImplyIndoors (tags : Tags) : Bool :=
  hasTag tags ("level") || decide (getTag tags ("highway") = some ("corridor"))

/-- Embeds allowsBridge. -/
def allowsBridge (featureType : FeatureType) : Bool :=
  decide (featureType = FeatureType.highway) || decide (featureType = FeatureType.railway)

/-- Embeds allowsTunnel. -/
def allowsTunnel (featureType : FeatureType) : Bool :=
  decide (featureType = FeatureType.highway) || decide (featureType = FeatureType.railway) ||
    decide (featureType = FeatureType.waterway)

/-- Embeds allowsStructures. -/
def allowsStructures (featureType : FeatureType) : Bool :=
  allowsBridge featureType || allowsTunnel featureType

/-- Embeds canCover. -/
def canCover (featureType : FeatureType) : Bool :=
  decide (featureType = FeatureType.building)

/-- Embeds getFeatureTypeForCrossingCheck. -/
def getFeatureTypeForCrossingCheck (w : Way) (g : Graph) : Option FeatureType :=
  getFeatureTypeForTags (getFeatureWithFeatureTypeTagsForWay w g).tags

/-- Embeds extendTagsByInferredLayer: when the layer tag is absent, or has the
value no, the derived layer of the way is written into the map; prepending
shadows any previous binding, matching the JS assignment. -/
def extendTagsByInferredLayer (tags : Tags) (way : Way) : Tags :=
  if hasTag tags ("layer") then tags else (("layer"), toString way.layerValue) :: tags

/-- Effective tags of a way for the legitimacy check: feature tags with the
inferred layer. -/
def effectiveTags (w : Way) (g : Graph) : Tags :=
  extendTagsByInferredLayer (getFeatureWithFeatureTypeTagsForWay w g).tags w

/-- Embeds the body of isLegitCrossing after the two effective tag maps are
computed: each JS if block that can return true becomes one disjunct. -/
def isLegitCrossingCore (tags1 : Tags) (featureType1 : FeatureType)
    (tags2 : Tags) (featureType2 : FeatureType) : Bool :=
  (tagsImplyIndoors tags1 && tagsImplyIndoors tags2 &&
    decide (getTag tags1 ("level") ≠ getTag tags2 ("level"))) ||
  (if allowsBridge featureType1 && allowsBridge featureType2 then
    (hasTag tags1 ("bridge") && !hasTag tags2 ("bridge")) ||
    (!hasTag tags1 ("bridge") && hasTag tags2 ("bridge")) ||
    (hasTag tags1 ("bridge") && hasTag tags2 ("bridge") &&
      decide (getTag tags1 ("layer") ≠ getTag tags2 ("layer")))
  else if allowsBridge featureType1 && hasTag tags1 ("bridge") then true
  else allowsBridge featureType2 && hasTag tags2 ("bridge")) ||
  (if allowsTunnel featureType1 && allowsTunnel featureType2 then
    (hasTag tags1 ("tunnel") && !hasTag tags2 ("tunnel")) ||
    (!hasTag tags1 ("tunnel") && hasTag tags2 ("tunnel")) ||
    (hasTag tags1 ("tunnel") && hasTag tags2 ("tunnel") &&
      decide (getTag tags1 ("layer") ≠ getTag tags2 ("layer")))
  else if allowsTunnel featureType1 && hasTag tags1 ("tunnel") then true
  else allowsTunnel featureType2 && hasTag tags2 ("tunnel")) ||
  (if canCover featureType1 && canCover featureType2 then
    hasTag tags1 ("covered") && hasTag tags2 ("covered") &&
      decide (getTag tags1 ("layer") ≠ getTag tags2 ("layer"))
  else if canCover featureType1 && hasTag tags2 ("covered") then true
  else canCover featureType2 && hasTag tags1 ("covered")) ||
  (!allowsStructures featureType1 && !allowsStructures featureType2 &&
    decide (getTag tags1 ("layer") ≠ getTag tags2 ("layer")))

/-- Embeds isLegitCrossing: effective tags of both ways fed to the rule body. -/
def isLegitCrossing (way1 : Way) (featureType1 : FeatureType)
    (way2 : Way) (featureType2 : FeatureType) (g : Graph) : Bool :=
  isLegitCrossingCore (effectiveTags way1 g) featureType1 (effectiveTags way2 g) featureType2

/-- Rational addition through the reducible smart constructor, so that
concrete runs of the modelled geometry evaluate inside proofs. -/
def qAdd (a b : ℚ) : ℚ :=
  mkRat (a.num * (b.den : Int) + b.num * (a.den : Int)) (a.den * b.den)

/-- Rational subtraction through the reducible smart constructor. -/
def qSub (a b : ℚ) : ℚ :=
  mkRat (a.num * (b.den : Int) - b.num * (a.den : Int)) (a.den * b.den)

/-- Rational multiplication through the reducible smart constructor. -/
def qMul (a b : ℚ) : ℚ :=
  mkRat (a.num * b.num) (a.den * b.den)

/-- Rational division through the reducible integer quotient constructor. -/
def qDiv (a b : ℚ) : ℚ :=
  Rat.divInt (a.num * (b.den : Int)) ((a.den : Int) * b.num)

/-- Boolean strict order on rationals through the reducible comparison. -/
def qLt (a b : ℚ) : Bool := a.blt b

/-- Boolean order on rationals through the reducible comparison. -/
def qLe (a b : ℚ) : Bool := !(b.blt a)

/-- Minimum through the reducible comparison. -/
def qMin (a b : ℚ) : ℚ := if a.blt b then a else b

/-- Maximum through the reducible comparison. -/
def qMax (a b : ℚ) : ℚ := if a.blt b then b else a

/-- Modelled from the spec: the external segment intersection collaborator.
Returns the exact crossing point of two finite 2D segments when they truly
cross inside both extents, following the parametric form with numerator and
denominator cross products; degenerate parallel or collinear-start cases
yield none. -/
def geoLineIntersection (segA segB : (ℚ × ℚ) × (ℚ × ℚ)) : Option (ℚ × ℚ) :=
  let p := segA.1
  let q := segB.1
  let r := (qSub segA.2.1 p.1, qSub segA.2.2 p.2)
  let s := (qSub segB.2.1 q.1, qSub segB.2.2 q.2)
  let uNumerator := qSub (qMul (qSub q.1 p.1) r.2) (qMul (qSub q.2 p.2) r.1)
  let denominator := qSub (qMul r.1 s.2) (qMul r.2 s.1)
  if uNumerator ≠ 0 ∧ denominator ≠ 0 then
    let u := qDiv uNumerator denominator
    let t := qDiv (qSub (qMul (qSub q.1 p.1) s.2) (qMul (qSub q.2 p.2) s.1)) denominator
    if qLe 0 t && qLe t 1 && qLe 0 u && qLe u 1 then
      some (qAdd p.1 (qMul t r.1), qAdd p.2 (qMul t r.2))
    else none
  else none

/-- One detected crossing of the primary edge with a candidate edge. -/
structure CrossCoord where
  edge : String × String
  point : ℚ × ℚ
deriving DecidableEq, Repr

/-- Embeds the candidate edge walk of findEdgeToWayCrossCoords: consecutive
node pairs of the candidate way, skipping edges that share an endpoint node
id with the primary edge, collecting true intersections, stopping after the
first one when oneOnly is set. -/
def crossCoordsLoop (n1 n2 : Node) (oneOnly : Bool) : List Node → List CrossCoord
  | nA :: nB :: rest =>
    if nA.id = n1.id ∨ nA.id = n2.id ∨ nB.id = n1.id ∨ nB.id = n2.id then
      crossCoordsLoop n1 n2 oneOnly (nB :: rest)
    else
      match geoLineIntersection (n1.loc, n2.loc) (nA.loc, nB.loc) with
      | some point =>
        ⟨(nA.id, nB.id), point⟩ ::
          (if oneOnly then [] else crossCoordsLoop n1 n2 oneOnly (nB :: rest))
      | none => crossCoordsLoop n1 n2 oneOnly (nB :: rest)
  | _ => []

/-- Embeds findEdgeToWayCrossCoords. -/
def findEdgeToWayCrossCoords (n1 n2 : Node) (way : Way) (g : Graph)
    (oneOnly : Bool) : List CrossCoord :=
  crossCoordsLoop n1 n2 oneOnly (g.childNodes way)

/-- Axis aligned bounding box. -/
structure Extent where
  lo : ℚ × ℚ
  hi : ℚ × ℚ
deriving DecidableEq, Repr

/-- Embeds the geoExtent built around one primary edge. -/
def edgeExtent (n1 n2 : Node) : Extent :=
  ⟨(qMin n1.loc.1 n2.loc.1, qMin n1.loc.2 n2.loc.2),
   (qMax n1.loc.1 n2.loc.1, qMax n1.loc.2 n2.loc.2)⟩

/-- Modelled from the spec: bounding box of a list of locations, used by the
spatial index collaborator. -/
def locsExtent : List (ℚ × ℚ) → Extent
  | [] => ⟨((0 : ℚ), (0 : ℚ)), ((0 : ℚ), (0 : ℚ))⟩
  | l :: ls =>
    ls.foldl
      (fun e p => ⟨(qMin e.lo.1 p.1, qMin e.lo.2 p.2), (qMax e.hi.1 p.1, qMax e.hi.2 p.2)⟩)
      ⟨l, l⟩

/-- Box overlap test for the modelled spatial index. -/
def extentIntersects (a b : Extent) : Bool :=
  qLe a.lo.1 b.hi.1 && qLe b.lo.1 a.hi.1 && qLe a.lo.2 b.hi.2 && qLe b.lo.2 a.hi.2

/-- Modelled from the spec: the spatial index query tree.intersects, which
returns the graph ways whose bounding geometry intersects the query box. -/
def treeIntersects (ext : Extent) (g : Graph) : List Way :=
  g.ways.filter (fun w => extentIntersects ext (locsExtent ((g.childNodes w).map Node.loc)))

/-- Transient record of one detected edge crossing. -/
structure EdgeCrossInfo where
  ways : Way × Way
  featureTypes : FeatureType × FeatureType
  edges : (String × String) × (String × String)
  crossPoint : ℚ × ℚ
deriving DecidableEq, Repr

/-- The one issue per pair switch: building involvement on either side. -/
def oneOnlyB (pft wft : FeatureType) : Bool :=
  decide (pft = FeatureType.building) || decide (wft = FeatureType.building)

/-- Builds the record pushed for one crossing found inside the candidate
loop of findCrossingsByWay. -/
def mkCrossInfo (p : Way) (pft : FeatureType) (n1 n2 : Node) (way : Way)
    (wft : FeatureType) (c : CrossCoord) : EdgeCrossInfo :=
  ⟨(p, way), (pft, wft), ((n1.id, n2.id), c.edge), c.point⟩

/-- Embeds the inner candidate loop of findCrossingsByWay over the ways
returned by the spatial index for one primary edge, threading the set of
already fully checked single-crossing ways. -/
def candidateLoop (p : Way) (pft : FeatureType) (n1 n2 : Node) (g : Graph) :
    List Way → List String → List EdgeCrossInfo × List String
  | [], checked => ([], checked)
  | way :: rest, checked =>
    if way.id ∈ checked then candidateLoop p pft n1 n2 g rest checked
    else if way.id = p.id then candidateLoop p pft n1 n2 g rest checked
    else
      match getFeatureTypeForCrossingCheck way g with
      | none => candidateLoop p pft n1 n2 g rest checked
      | some wft =>
        if isLegitCrossing p pft way wft g || isLegitCrossing way wft p pft g then
          candidateLoop p pft n1 n2 g rest checked
        else
          let cc := findEdgeToWayCrossCoords n1 n2 way g (oneOnlyB pft wft)
          let checked2 := if oneOnlyB pft wft && !cc.isEmpty then way.id :: checked else checked
          let res := candidateLoop p pft n1 n2 g rest checked2
          ((cc.map (mkCrossInfo p pft n1 n2 way wft)) ++ res.1, res.2)

/-- Embeds the outer edge loop of findCrossingsByWay over consecutive node
pairs of the primary way. -/
def edgeLoop (p : Way) (pft : FeatureType) (g : Graph) :
    List String → List String → List EdgeCrossInfo × List String
  | nid1 :: nid2 :: rest, checked =>
    let n1 := g.entityNode nid1
    let n2 := g.entityNode nid2
    let res1 := candidateLoop p pft n1 n2 g (treeIntersects (edgeExtent n1 n2) g) checked
    let res2 := edgeLoop p pft g (nid2 :: rest) res1.2
    (res1.1 ++ res2.1, res2.2)
  | _, checked => ([], checked)

/-- Embeds findCrossingsByWay. -/
def findCrossingsByWay (primaryWay : Way) (g : Graph) : List EdgeCrossInfo :=
  match getFeatureTypeForCrossingCheck primaryWay g with
  | none => []
  | some pft => (edgeLoop primaryWay pft g primaryWay.nodes []).1

/-- Embeds highwaysDisallowingFords. -/
def highwaysDisallowingFords : List String :=
  ["motorway", "motorway_link", "trunk", "trunk_link",
   "primary", "primary_link", "secondary", "secondary_link"]

/-- Embeds pathHighways. -/
def pathHighways : List String :=
  ["path", "footway", "cycleway", "bridleway", "pedestrian", "steps", "corridor"]

/-- Path test on the raw highway tag value. -/
def isPathHighway (tags : Tags) : Bool :=
  tagValIn tags ("highway") pathHighways

/-- Embeds tagsForConnectionNodeIfAllowed.  The JS return values null and
empty object are distinct: none embeds null, some of a list embeds an
object, in particular some [] embeds the truthy empty object. -/
def tagsForConnectionNodeIfAllowed (entity1 entity2 : Feature) : Option Tags :=
  let featureType1 := getFeatureTypeForTags entity1.tags
  let featureType2 := getFeatureTypeForTags entity2.tags
  if featureType1 = featureType2 then
    if featureType1 = some FeatureType.highway then
      let entity1IsPath := isPathHighway entity1.tags
      let entity2IsPath := isPathHighway entity2.tags
      if (entity1IsPath || entity2IsPath) && entity1IsPath != entity2IsPath then
        let pathFeature := if entity1IsPath then entity1 else entity2
        if getTag pathFeature.tags ("highway") = some ("footway") ∧
            getTag pathFeature.tags ("footway") = some ("crossing") ∧
            (getTag pathFeature.tags ("crossing") = some ("marked") ∨
              getTag pathFeature.tags ("crossing") = some ("unmarked")) then
          some [(("highway"), ("crossing")),
                (("crossing"), (getTag pathFeature.tags ("crossing")).getD (""))]
        else some [(("highway"), ("crossing"))]
      else some []
    else if featureType1 = some FeatureType.waterway then some []
    else if featureType1 = some FeatureType.railway then some []
    else none
  else
    if featureType1 = some FeatureType.highway ∨ featureType2 = some FeatureType.highway then
      if featureType1 = some FeatureType.railway ∨ featureType2 = some FeatureType.railway then
        if isPathHighway entity1.tags || isPathHighway entity2.tags then
          some [(("railway"), ("crossing"))]
        else some [(("railway"), ("level_crossing"))]
      else if featureType1 = some FeatureType.waterway ∨ featureType2 = some FeatureType.waterway then
        if hasTag entity1.tags ("tunnel") && hasTag entity2.tags ("tunnel") then none
        else if hasTag entity1.tags ("bridge") && hasTag entity2.tags ("bridge") then none
        else if tagValIn entity1.tags ("highway") highwaysDisallowingFords ||
            tagValIn entity2.tags ("highway") highwaysDisallowingFords then none
        else some [(("ford"), ("yes"))]
      else none
    else none

/-- Code point comparison of char lists. -/
def charListLt : List Char → List Char → Bool
  | _, [] => false
  | [], _ :: _ => true
  | a :: as, b :: bs =>
    if a.toNat < b.toNat then true
    else if b.toNat < a.toNat then false
    else charListLt as bs

/-- Modelled JS string relational compare, code point wise; written with a
reducible recursion so that concrete runs evaluate inside proofs. -/
def strLt (a b : String) : Bool := charListLt a.data b.data

/-- Category name string, as used by the JS comparator and the crossing type
key. -/
def featureTypeName : FeatureType → String
  | .building => "building"
  | .highway => "highway"
  | .railway => "railway"
  | .waterway => "waterway"

/-- Embeds the boolean returning sort comparator of createIssue coerced to a
number: true coerces to 1 and false to 0, so the comparator never reports
that the first entity sorts strictly earlier.  A relational compare between
null and a string is false in JS, hence 0. -/
def sortCompareNum (g : Graph) (entity1 entity2 : Way) : Nat :=
  let type1 := getFeatureTypeForCrossingCheck entity1 g
  let type2 := getFeatureTypeForCrossingCheck entity2 g
  if type1 = type2 then
    if strLt entity2.label entity1.label then 1 else 0
  else if type1 = some FeatureType.waterway then 1
  else if type2 = some FeatureType.waterway then 0
  else
    match type1, type2 with
    | some a, some b => if strLt (featureTypeName a) (featureTypeName b) then 1 else 0
    | _, _ => 0

/-- Modelled two element JS Array sort: one comparator call on the pair in
array order, swapping exactly when the result is positive. -/
def sortWays (g : Graph) (way1 way2 : Way) : Way × Way :=
  if 0 < sortCompareNum g way1 way2 then (way2, way1) else (way1, way2)

/-- Modelled from the spec: the localization collaborator t, mapping a key to
a display string; modelled as the key itself. -/
def t (key : String) : String := key

/-- Remediation entry of an issue: title and whether an executable action is
attached (only the connect fix carries one). -/
structure Fix where
  title : String
  hasOnClick : Bool
deriving DecidableEq, Repr

/-- Validation issue emitted for one crossing. -/
structure Issue where
  severity : String
  message : String
  tooltip : String
  entities : List Feature
  infoEdges : (String × String) × (String × String)
  connectionTags : Option Tags
  loc : ℚ × ℚ
  fixes : List Fix
deriving DecidableEq, Repr

/-- The two category names sorted ascending and joined with a hyphen. -/
def sortedTypeKey (a b : FeatureType) : String :=
  if !strLt (featureTypeName b) (featureTypeName a) then
    featureTypeName a ++ ("-") ++ featureTypeName b
  else featureTypeName b ++ ("-") ++ featureTypeName a

/-- Embeds createIssue: orders the pair, resolves both sides to the feature
with the defining tags, computes connection tags, the crossing type key and
the fix list. -/
def createIssue (crossing : EdgeCrossInfo) (g : Graph) : Issue :=
  let sorted := sortWays g crossing.ways.1 crossing.ways.2
  let entity1 := getFeatureWithFeatureTypeTagsForWay sorted.1 g
  let entity2 := getFeatureWithFeatureTypeTagsForWay sorted.2 g
  let connectionTags := tagsForConnectionNodeIfAllowed entity1 entity2
  let featureType1 := crossing.featureTypes.1
  let featureType2 := crossing.featureTypes.2
  let isCrossingIndoors := tagsImplyIndoors entity1.tags && tagsImplyIndoors entity2.tags
  let isCrossingTunnels := allowsTunnel featureType1 && hasTag entity1.tags ("tunnel") &&
    allowsTunnel featureType2 && hasTag entity2.tags ("tunnel")
  let isCrossingBridges := allowsBridge featureType1 && hasTag entity1.tags ("bridge") &&
    allowsBridge featureType2 && hasTag entity2.tags ("bridge")
  let crossingTypeBase :=
    if isCrossingIndoors then ("indoor-indoor")
    else if isCrossingTunnels then ("tunnel-tunnel")
    else if isCrossingBridges then ("bridge-bridge")
    else sortedTypeKey featureType1 featureType2
  let crossingTypeID :=
    if connectionTags.isSome && (isCrossingIndoors || isCrossingTunnels || isCrossingBridges) then
      crossingTypeBase ++ ("_connectable")
    else crossingTypeBase
  let useFixID :=
    if isCrossingIndoors then ("use_different_levels")
    else if isCrossingTunnels || isCrossingBridges then ("use_different_layers")
    else if allowsBridge featureType1 || allowsBridge featureType2 then ("use_bridge_or_tunnel")
    else if allowsTunnel featureType1 || allowsTunnel featureType2 then ("use_tunnel")
    else ("use_different_layers")
  let fixes :=
    (match connectionTags with
      | some _ => [Fix.mk (t ("issues.fix.connect_features.title")) true]
      | none => []) ++
    [Fix.mk (t (("issues.fix.") ++ useFixID ++ (".title"))) false,
     Fix.mk (t ("issues.fix.reposition_features.title")) false]
  { severity := "warning"
    message := t ("issues.crossing_ways.message")
    tooltip := t (("issues.crossing_ways.") ++ crossingTypeID ++ (".tip"))
    entities := [entity1, entity2]
    infoEdges := crossing.edges
    connectionTags := connectionTags
    loc := crossing.crossPoint
    fixes := fixes }

/-- Embeds the validation entry point: the ways to check for the changed
entity, their crossings, and one issue per crossing. -/
def validation (entity : Entity) (g : Graph) : List Issue :=
  let waysToCheck : List Way :=
    match entity with
    | .way w => if getFeatureTypeForTags w.tags = none then [] else [w]
    | .rel r =>
      if getFeatureTypeForTags r.tags = none then []
      else if getTag r.tags ("type") = some ("multipolygon") ∧ hasTag r.tags ("building") = true then
        r.members.filterMap g.findWay
      else []
    | .node _ => []
  ((waysToCheck.map (fun w => findCrossingsByWay w g)).flatten).map (fun c => createIssue c g)

/-- Embeds graph.replace for a node: the binding with the same id is
replaced, the new node is found first. -/
def Graph.replaceNode (g : Graph) (n : Node) : Graph :=
  { g with nodes := n :: g.nodes.filter (fun m => decide (m.id ≠ n.id)) }

/-- Closest node query result. -/
structure ClosestInfo where
  node : Node
  distance : ℚ
deriving DecidableEq, Repr

/-- Modelled from the spec: geoSphericalClosestNode of the external geo
collaborator; the metric itself is an abstract parameter, the query keeps
the earliest node at strictly minimal distance. -/
def geoSphericalClosestNode (dist : (ℚ × ℚ) → (ℚ × ℚ) → ℚ) (nodes : List Node)
    (loc : ℚ × ℚ) : Option ClosestInfo :=
  match nodes with
  | [] => none
  | n :: ns =>
    some (ns.foldl
      (fun best m => if qLt (dist m.loc loc) best.distance then ⟨m, dist m.loc loc⟩ else best)
      ⟨n, dist n.loc loc⟩)

/-- Splices a node id into a node list at the first place where the two edge
endpoint ids appear consecutively in order. -/
def insertIntoWayNodes (a b nid : String) : List String → List String
  | [] => []
  | [x] => [x]
  | x :: y :: rest =>
    if x = a ∧ y = b then x :: nid :: y :: rest
    else x :: insertIntoWayNodes a b nid (y :: rest)

/-- Modelled from the spec: the generic actionAddMidpoint collaborator, a
black box graph transformation that splices the given node into every way
holding the given edge. -/
def actionAddMidpoint (edge : String × String) (node : Node) (g : Graph) : Graph :=
  { g with ways := g.ways.map (fun w => { w with nodes := insertIntoWayNodes edge.1 edge.2 node.id w.nodes }) }

/-- Collapses adjacent duplicate ids left by a merge. -/
def dedupAdjacent : List String → List String
  | [] => []
  | [x] => [x]
  | x :: y :: rest => if x = y then dedupAdjacent (y :: rest) else x :: dedupAdjacent (y :: rest)

/-- Modelled from the spec: the generic actionMergeNodes collaborator, a
black box graph transformation merging the listed nodes into a single node
at the given location; the first listed id survives, every way reference to
the other ids is redirected to it and adjacent duplicates collapse. -/
def actionMergeNodes (ids : List String) (loc : ℚ × ℚ) (g : Graph) : Graph :=
  match ids with
  | [] => g
  | survivor :: rest =>
    { nodes := Node.mk survivor loc ((g.findNode survivor).elim [] Node.tags) ::
        g.nodes.filter (fun n => decide (n.id ≠ survivor ∧ n.id ∉ rest)),
      ways := g.ways.map (fun w =>
        { w with nodes := dedupAdjacent (w.nodes.map (fun nid => if nid ∈ rest then survivor else nid)) }),
      relations := g.relations }

/-- Embeds actionConnectCrossingWays from the connect fix: a new node is
created at the crossing location with the proposed connection tags, then for
each crossing edge the closer endpoint is merged when it lies within 0.75
distance units, and the edge is split by the new node otherwise; when at
least two nodes are marked they are merged at the location.  The metric and
the fresh node id come from external collaborators and are parameters. -/
def actionConnectCrossingWays (dist : (ℚ × ℚ) → (ℚ × ℚ) → ℚ) (newId : String)
    (loc : ℚ × ℚ) (connectionTags : Tags) (edges : List (String × String))
    (g0 : Graph) : Graph :=
  let node : Node := ⟨newId, loc, connectionTags⟩
  let gStart := g0.replaceNode node
  let res := edges.foldl
    (fun acc edge =>
      let edgeNodes := [acc.1.entityNode edge.1, acc.1.entityNode edge.2]
      match geoSphericalClosestNode dist edgeNodes loc with
      | some closestNodeInfo =>
        if qLt closestNodeInfo.distance (mkRat 3 4) then
          (acc.1, acc.2 ++ [closestNodeInfo.node.id])
        else (actionAddMidpoint edge node acc.1, acc.2)
      | none => acc)
    (gStart, [newId])
  if 1 < res.2.length then actionMergeNodes res.2 loc res.1 else res.1

/-- Consecutive pairs of a list. -/
def adjacentPairs : List Node → List (Node × Node)
  | a :: b :: rest => (a, b) :: adjacentPairs (b :: rest)
  | _ => []

/-- Reference form for the completeness half of the dedup invariant claim,
following the spec words: without the one issue per pair restriction, every
candidate edge that does not share an endpoint with the primary edge and
truly intersects it is reported. -/
def allQualifyingCrossCoords (n1 n2 : Node) (nodes : List Node) : List CrossCoord :=
  (adjacentPairs nodes).filterMap (fun ab =>
    if ab.1.id = n1.id ∨ ab.1.id = n2.id ∨ ab.2.id = n1.id ∨ ab.2.id = n2.id then none
    else (geoLineIntersection (n1.loc, n2.loc) (ab.1.loc, ab.2.loc)).map
      (fun point => ⟨(ab.1.id, ab.2.id), point⟩))

/-- Flag for counting crossings of a building involved pair against one
candidate way id. -/
def buildingPairFlag (wid : String) (info : EdgeCrossInfo) : Bool :=
  (decide (info.featureTypes.1 = FeatureType.building) ||
    decide (info.featureTypes.2 = FeatureType.building)) && decide (info.ways.2.id = wid)

/-- Number of reported crossings of a building involved pair with the given
candidate way id. -/
def countB (l : List EdgeCrossInfo) (wid : String) : Nat :=
  l.countP (buildingPairFlag wid)

/-- Removes every binding of a key. -/
def eraseTag : Tags → String → Tags
  | [], _ => []
  | p :: rest, k => if p.1 = k then eraseTag rest k else p :: eraseTag rest k

/-- Sets a key to a value, shadowing previous bindings. -/
def setTag (tags : Tags) (k v : String) : Tags :=
  (k, v) :: eraseTag tags k

/-- Concrete metric instance for witnesses: squared Euclidean distance. -/
def sqDist (p q : ℚ × ℚ) : ℚ :=
  qAdd (qMul (qSub p.1 q.1) (qSub p.1 q.1)) (qMul (qSub p.2 q.2) (qSub p.2 q.2))

/-- Concrete node of the running example. -/
def nodeA1 : Node := ⟨"a1", (mkRat 0 1, mkRat (-1) 1), []⟩

/-- Concrete node of the running example. -/
def nodeA2 : Node := ⟨"a2", (mkRat 0 1, mkRat 1 1), []⟩

/-- Concrete node of the running example. -/
def nodeB1 : Node := ⟨"b1", (mkRat (-1) 1, mkRat 0 1), []⟩

/-- Concrete node of the running example. -/
def nodeB2 : Node := ⟨"b2", (mkRat 1 1, mkRat 0 1), []⟩

/-- Concrete residential highway way crossing the stream of the example. -/
def wayA : Way := ⟨"A", ["a1", "a2"], [(("highway"), ("residential"))], 0, "Road A"⟩

/-- Concrete stream waterway way of the example. -/
def wayB : Way := ⟨"B", ["b1", "b2"], [(("waterway"), ("stream"))], 0, "Stream B"⟩

/-- Concrete graph of the example: one highway crossing one waterway at the
origin. -/
def exampleGraph : Graph := ⟨[nodeA1, nodeA2, nodeB1, nodeB2], [wayA, wayB], []⟩

/-- Graph after the connect fix of the example issue is applied. -/
def exampleGraphFixed : Graph :=
  actionConnectCrossingWays sqDist ("J") (mkRat 0 1, mkRat 0 1) [(("ford"), ("yes"))]
    [(("a1"), ("a2")), (("b1"), ("b2"))] exampleGraph

/-- The primary way of the example as updated by the connect fix. -/
def wayAFixed : Way := (exampleGraphFixed.findWay ("A")).getD wayA

/-- Concrete waterway way for the same category pair example. -/
def wayC : Way := ⟨"C", ["a1", "a2"], [(("waterway"), ("canal"))], 0, "Canal C"⟩

/-- Concrete waterway way for the same category pair example. -/
def wayD : Way := ⟨"D", ["b1", "b2"], [(("waterway"), ("canal"))], 0, "Canal D"⟩

/-- Concrete graph in which two canals cross. -/
def canalGraph : Graph := ⟨[nodeA1, nodeA2, nodeB1, nodeB2], [wayC, wayD], []⟩

/-- Empty graph, no parent relations. -/
def emptyGraph : Graph := ⟨[], [], []⟩

/-- Concrete residential highway on a bridge. -/
def wayBridge : Way :=
  ⟨"BR1", ["a1", "a2"], [(("highway"), ("residential")), (("bridge"), ("yes"))], 0, "Bridge 1"⟩

/-- Concrete residential highway without a bridge. -/
def wayPlain : Way := ⟨"BR2", ["b1", "b2"], [(("highway"), ("residential"))], 0, "Plain 2"⟩

/-- Concrete untagged member way for the parent relation example. -/
def wayMember : Way := ⟨"M", ["a1", "a2"], [], 0, "Member M"⟩

/-- Concrete building multipolygon parent relation. -/
def relBuilding : Relation :=
  ⟨"R", [(("type"), ("multipolygon")), (("building"), ("yes"))], ["M"], "Building R"⟩

/-- Concrete graph with the untagged way and its building parent relation. -/
def relGraph : Graph := ⟨[nodeA1, nodeA2], [wayMember], [relBuilding]⟩

/-- Concrete corridor way carrying a level tag with the value no. -/
def wayCorridorLevelNo : Way :=
  ⟨"K1", ["a1", "a2"], [(("highway"), ("corridor")), (("level"), ("no"))], 0, "K1"⟩

/-- The same corridor way with the level tag removed. -/
def wayCorridorErased : Way :=
  ⟨"K1", ["a1", "a2"], [(("highway"), ("corridor"))], 0, "K1"⟩

/-- Concrete corridor way without a level tag. -/
def wayCorridorPlain : Way :=
  ⟨"K2", ["b1", "b2"], [(("highway"), ("corridor"))], 0, "K2"⟩

/-- Concrete node near the crossing point of the merge example. -/
def nodeP1 : Node := ⟨"p1", (mkRat 0 1, mkRat 1 2), []⟩

/-- Concrete far node of the merge example. -/
def nodeP2 : Node := ⟨"p2", (mkRat 0 1, mkRat (-2) 1), []⟩

/-- Concrete node near the crossing point of the merge example. -/
def nodeQ1 : Node := ⟨"q1", (mkRat 1 2, mkRat 0 1), []⟩

/-- Concrete far node of the merge example. -/
def nodeQ2 : Node := ⟨"q2", (mkRat (-2) 1, mkRat 0 1), []⟩

/-- Concrete graph of the merge example: both crossing edges have an
endpoint within the merge threshold of the origin. -/
def mergeGraph : Graph :=
  ⟨[nodeP1, nodeP2, nodeQ1, nodeQ2],
   [⟨"P", ["p1", "p2"], [(("highway"), ("residential"))], 0, "P"⟩,
    ⟨"Q", ["q1", "q2"], [(("waterway"), ("stream"))], 0, "Q"⟩], []⟩

/-- Concrete motorway feature for the ford refusal example. -/
def featMotorway : Feature :=
  Feature.ofWay ⟨"MW", [], [(("highway"), ("motorway"))], 0, "Mw"⟩

/-- Concrete stream feature for the ford example. -/
def featStream : Feature :=
  Feature.ofWay ⟨"ST", [], [(("waterway"), ("stream"))], 0, "St"⟩

/-- Concrete residential highway feature for the ford example. -/
def featResidential : Feature :=
  Feature.ofWay ⟨"RS", [], [(("highway"), ("residential"))], 0, "Rs"⟩

theorem getTag_eraseTag_self (tags : Tags) (k : String) :
    getTag (eraseTag tags k) k = none := by
  induction tags with
  | nil => rfl
  | cons p rest ih =>
    by_cases h : p.1 = k
    · simpa [eraseTag, h] using ih
    · simpa [eraseTag, getTag, h] using ih

theorem getTag_eraseTag_ne (tags : Tags) (k key : String) (h : key ≠ k) :
    getTag (eraseTag tags k) key = getTag tags key := by
  induction tags with
  | nil => rfl
  | cons p rest ih =>
    by_cases hp : p.1 = k
    · have hkey : ¬ p.1 = key := fun hc => h (hc ▸ hp)
      have e1 : eraseTag (p :: rest) k = eraseTag rest k := by
        simp [eraseTag, hp]
      have e2 : getTag (p :: rest) key = getTag rest key := by
        simp [getTag, hkey]
      rw [e1, ih, e2]
    · have e1 : eraseTag (p :: rest) k = p :: eraseTag rest k := by
        simp [eraseTag, hp]
      by_cases hk2 : p.1 = key
      · rw [e1]
        simp [getTag, hk2]
      · rw [e1]
        simp [getTag, hk2, ih]

theorem getTag_setTag_self (tags : Tags) (k v : String) :
    getTag (setTag tags k v) k = some v := by
  simp [setTag, getTag]

theorem getTag_setTag_ne (tags : Tags) (k v key : String) (h : key ≠ k) :
    getTag (setTag tags k v) key = getTag tags key := by
  have hk : k ≠ key := fun hc => h hc.symm
  simp [setTag, getTag, hk, getTag_eraseTag_ne tags k key h]

theorem hasTag_setTag_no_eq_erase (tags : Tags) (k key : String) :
    hasTag (setTag tags k ("no")) key = hasTag (eraseTag tags k) key := by
  by_cases h : key = k
  · subst h
    simp [hasTag, getTag_setTag_self, getTag_eraseTag_self]
  · simp [hasTag, getTag_setTag_ne tags k _ key h, getTag_eraseTag_ne tags k key h]

theorem isLegitCrossingCore_congr_left (t1 t1' t2 : Tags) (ft1 ft2 : FeatureType)
    (hHas : ∀ key, hasTag t1 key = hasTag t1' key)
    (hLevel : getTag t1 ("level") = getTag t1' ("level"))
    (hLayer : getTag t1 ("layer") = getTag t1' ("layer"))
    (hHighway : getTag t1 ("highway") = getTag t1' ("highway")) :
    isLegitCrossingCore t1 ft1 t2 ft2 = isLegitCrossingCore t1' ft1 t2 ft2 := by
  simp only [isLegitCrossingCore, tagsImplyIndoors, hHas, hLevel, hLayer, hHighway]

theorem isLegitCrossingCore_congr_right (t1 t2 t2' : Tags) (ft1 ft2 : FeatureType)
    (hHas : ∀ key, hasTag t2 key = hasTag t2' key)
    (hLevel : getTag t2 ("level") = getTag t2' ("level"))
    (hLayer : getTag t2 ("layer") = getTag t2' ("layer"))
    (hHighway : getTag t2 ("highway") = getTag t2' ("highway")) :
    isLegitCrossingCore t1 ft1 t2 ft2 = isLegitCrossingCore t1 ft1 t2' ft2 := by
  simp only [isLegitCrossingCore, tagsImplyIndoors, hHas, hLevel, hLayer, hHighway]

/-- Claim C10, corrected part: for the bridge, tunnel and covered keys a tag
with the value no behaves in the legitimacy rules exactly like an absent
tag, on either side of the pair.  The level key, also named by the claim, is
excluded: the counterexample shows a level tag with the value no changing
the verdict. -/
theorem claim_C10_amended (t1 t2 : Tags) (ft1 ft2 : FeatureType) (k : String)
    (hk : k = "bridge" ∨ k = "tunnel" ∨ k = "covered") :
    (isLegitCrossingCore (setTag t1 k ("no")) ft1 t2 ft2 =
      isLegitCrossingCore (eraseTag t1 k) ft1 t2 ft2) ∧
    (isLegitCrossingCore t1 ft1 (setTag t2 k ("no")) ft2 =
      isLegitCrossingCore t1 ft1 (eraseTag t2 k) ft2) := by
  rcases hk with h | h | h <;> subst h <;>
    exact ⟨isLegitCrossingCore_congr_left _ _ _ _ _
        (hasTag_setTag_no_eq_erase t1 _)
        (by rw [getTag_setTag_ne t1 _ _ _ (by decide), getTag_eraseTag_ne t1 _ _ (by decide)])
        (by rw [getTag_setTag_ne t1 _ _ _ (by decide), getTag_eraseTag_ne t1 _ _ (by decide)])
        (by rw [getTag_setTag_ne t1 _ _ _ (by decide), getTag_eraseTag_ne t1 _ _ (by decide)]),
      isLegitCrossingCore_congr_right _ _ _ _ _
        (hasTag_setTag_no_eq_erase t2 _)
        (by rw [getTag_setTag_ne t2 _ _ _ (by decide), getTag_eraseTag_ne t2 _ _ (by decide)])
        (by rw [getTag_setTag_ne t2 _ _ _ (by decide), getTag_eraseTag_ne t2 _ _ (by decide)])
        (by rw [getTag_setTag_ne t2 _ _ _ (by decide), getTag_eraseTag_ne t2 _ _ (by decide)])⟩

/-- Claim C10, counterexample: a level tag with the value no is not treated
as absent by the legitimacy rules.  Two crossing corridor highways are
judged legitimate when one of them carries level tagged no, yet not
legitimate when that tag is missing, because the raw level values still feed
the level difference comparison. -/
theorem claim_C10_counterexample :
    isLegitCrossing wayCorridorLevelNo FeatureType.highway wayCorridorPlain
      FeatureType.highway emptyGraph = true ∧
    isLegitCrossing wayCorridorErased FeatureType.highway wayCorridorPlain
      FeatureType.highway emptyGraph = false := by
  exact ⟨by decide, by decide⟩

/-- Witness of claim C10: the amended statement applied at a concrete tag
map for each key. -/
theorem claim_C10_amended_witness :
    (isLegitCrossingCore (setTag [(("bridge"), ("yes"))] ("bridge") ("no"))
        FeatureType.highway [] FeatureType.highway =
      isLegitCrossingCore (eraseTag [(("bridge"), ("yes"))] ("bridge"))
        FeatureType.highway [] FeatureType.highway) ∧
    (isLegitCrossingCore [] FeatureType.highway
        (setTag [(("tunnel"), ("yes"))] ("tunnel") ("no")) FeatureType.highway =
      isLegitCrossingCore [] FeatureType.highway
        (eraseTag [(("tunnel"), ("yes"))] ("tunnel")) FeatureType.highway) :=
  ⟨(claim_C10_amended [(("bridge"), ("yes"))] [] FeatureType.highway FeatureType.highway
      ("bridge") (Or.inl rfl)).1,
   (claim_C10_amended [] [(("tunnel"), ("yes"))] FeatureType.highway FeatureType.highway
      ("tunnel") (Or.inr (Or.inl rfl))).2⟩

theorem crossCoordsLoop_not_endpoint (n1 n2 : Node) (oneOnly : Bool) :
    ∀ (l : List Node) (c : CrossCoord), c ∈ crossCoordsLoop n1 n2 oneOnly l →
      c.edge.1 ≠ n1.id ∧ c.edge.1 ≠ n2.id ∧ c.edge.2 ≠ n1.id ∧ c.edge.2 ≠ n2.id := by
  intro l
  induction l with
  | nil => intro c hc; simp [crossCoordsLoop] at hc
  | cons nA tail ih =>
    cases tail with
    | nil => intro c hc; simp [crossCoordsLoop] at hc
    | cons nB rest =>
      intro c hc
      by_cases hskip : nA.id = n1.id ∨ nA.id = n2.id ∨ nB.id = n1.id ∨ nB.id = n2.id
      · rw [show crossCoordsLoop n1 n2 oneOnly (nA :: nB :: rest) =
            crossCoordsLoop n1 n2 oneOnly (nB :: rest) from by
          simp [crossCoordsLoop, hskip]] at hc
        exact ih c hc
      · push_neg at hskip
        obtain ⟨h1, h2, h3, h4⟩ := hskip
        cases hgeo : geoLineIntersection (n1.loc, n2.loc) (nA.loc, nB.loc) with
        | none =>
          rw [show crossCoordsLoop n1 n2 oneOnly (nA :: nB :: rest) =
              crossCoordsLoop n1 n2 oneOnly (nB :: rest) from by
            simp [crossCoordsLoop, h1, h2, h3, h4, hgeo]] at hc
          exact ih c hc
        | some point =>
          rw [show crossCoordsLoop n1 n2 oneOnly (nA :: nB :: rest) =
              ⟨(nA.id, nB.id), point⟩ ::
                (if oneOnly then [] else crossCoordsLoop n1 n2 oneOnly (nB :: rest)) from by
            simp [crossCoordsLoop, h1, h2, h3, h4, hgeo]] at hc
          rcases List.mem_cons.mp hc with hceq | hmem
          · subst hceq
            exact ⟨h1, h2, h3, h4⟩
          · cases oneOnly with
            | true => simp at hmem
            | false => exact ih c hmem

theorem crossCoordsLoop_length_oneOnly (n1 n2 : Node) :
    ∀ l : List Node, (crossCoordsLoop n1 n2 true l).length ≤ 1 := by
  intro l
  induction l with
  | nil => simp [crossCoordsLoop]
  | cons nA tail ih =>
    cases tail with
    | nil => simp [crossCoordsLoop]
    | cons nB rest =>
      by_cases hskip : nA.id = n1.id ∨ nA.id = n2.id ∨ nB.id = n1.id ∨ nB.id = n2.id
      · rw [show crossCoordsLoop n1 n2 true (nA :: nB :: rest) =
            crossCoordsLoop n1 n2 true (nB :: rest) from by
          simp [crossCoordsLoop, hskip]]
        exact ih
      · push_neg at hskip
        obtain ⟨h1, h2, h3, h4⟩ := hskip
        cases hgeo : geoLineIntersection (n1.loc, n2.loc) (nA.loc, nB.loc) with
        | none =>
          rw [show crossCoordsLoop n1 n2 true (nA :: nB :: rest) =
              crossCoordsLoop n1 n2 true (nB :: rest) from by
            simp [crossCoordsLoop, h1, h2, h3, h4, hgeo]]
          exact ih
        | some point =>
          rw [show crossCoordsLoop n1 n2 true (nA :: nB :: rest) =
              [⟨(nA.id, nB.id), point⟩] from by
            simp [crossCoordsLoop, h1, h2, h3, h4, hgeo]]
          exact Nat.le_refl 1

theorem crossCoordsLoop_false_complete (n1 n2 : Node) :
    ∀ l : List Node, crossCoordsLoop n1 n2 false l = allQualifyingCrossCoords n1 n2 l := by
  intro l
  induction l with
  | nil => rfl
  | cons nA tail ih =>
    cases tail with
    | nil => rfl
    | cons nB rest =>
      by_cases hskip : nA.id = n1.id ∨ nA.id = n2.id ∨ nB.id = n1.id ∨ nB.id = n2.id
      · simp only [crossCoordsLoop, allQualifyingCrossCoords, adjacentPairs,
          List.filterMap_cons, hskip, if_true, if_pos hskip]
        simpa [allQualifyingCrossCoords] using ih
      · cases hgeo : geoLineIntersection (n1.loc, n2.loc) (nA.loc, nB.loc) with
        | none =>
          simp only [crossCoordsLoop, allQualifyingCrossCoords, adjacentPairs,
            List.filterMap_cons, if_neg hskip, hgeo, Option.map_none]
          simpa [allQualifyingCrossCoords] using ih
        | some point =>
          simp only [crossCoordsLoop, allQualifyingCrossCoords, adjacentPairs,
            List.filterMap_cons, if_neg hskip, hgeo, Option.map_some, if_false]
          simpa [allQualifyingCrossCoords] using ih

theorem candidateLoop_mem (p : Way) (pft : FeatureType) (n1 n2 : Node) (g : Graph) :
    ∀ (cands : List Way) (checked : List String) (info : EdgeCrossInfo),
      info ∈ (candidateLoop p pft n1 n2 g cands checked).1 →
      info.ways.1 = p ∧ info.featureTypes.1 = pft ∧
      getFeatureTypeForCrossingCheck info.ways.2 g = some info.featureTypes.2 ∧
      isLegitCrossing p pft info.ways.2 info.featureTypes.2 g = false ∧
      isLegitCrossing info.ways.2 info.featureTypes.2 p pft g = false ∧
      info.ways.2.id ≠ p.id ∧
      info.edges.1 = (n1.id, n2.id) ∧
      (⟨info.edges.2, info.crossPoint⟩ : CrossCoord) ∈
        findEdgeToWayCrossCoords n1 n2 info.ways.2 g (oneOnlyB pft info.featureTypes.2) := by
  intro cands
  induction cands with
  | nil => intro checked info hinfo; simp [candidateLoop] at hinfo
  | cons way rest ih =>
    intro checked info hinfo
    by_cases hchk : way.id ∈ checked
    · rw [show (candidateLoop p pft n1 n2 g (way :: rest) checked).1 =
          (candidateLoop p pft n1 n2 g rest checked).1 from by
        simp [candidateLoop, hchk]] at hinfo
      exact ih checked info hinfo
    · by_cases hself : way.id = p.id
      · rw [show (candidateLoop p pft n1 n2 g (way :: rest) checked).1 =
            (candidateLoop p pft n1 n2 g rest checked).1 from by
          simp [candidateLoop, hchk, hself]] at hinfo
        exact ih checked info hinfo
      · cases hft : getFeatureTypeForCrossingCheck way g with
        | none =>
          rw [show (candidateLoop p pft n1 n2 g (way :: rest) checked).1 =
              (candidateLoop p pft n1 n2 g rest checked).1 from by
            simp [candidateLoop, hchk, hself, hft]] at hinfo
          exact ih checked info hinfo
        | some wft =>
          by_cases hlegit : (isLegitCrossing p pft way wft g ||
              isLegitCrossing way wft p pft g) = true
          · rw [show (candidateLoop p pft n1 n2 g (way :: rest) checked).1 =
                (candidateLoop p pft n1 n2 g rest checked).1 from by
              simp only [candidateLoop, hft]
              rw [if_neg hchk, if_neg hself, if_pos hlegit]] at hinfo
            exact ih checked info hinfo
          · rw [show (candidateLoop p pft n1 n2 g (way :: rest) checked).1 =
                (findEdgeToWayCrossCoords n1 n2 way g (oneOnlyB pft wft)).map
                    (mkCrossInfo p pft n1 n2 way wft) ++
                  (candidateLoop p pft n1 n2 g rest
                    (if oneOnlyB pft wft &&
                        !(findEdgeToWayCrossCoords n1 n2 way g (oneOnlyB pft wft)).isEmpty then
                      way.id :: checked else checked)).1 from by
              simp only [candidateLoop, hft]
              rw [if_neg hchk, if_neg hself, if_neg hlegit]] at hinfo
            rcases List.mem_append.mp hinfo with hmap | hrest
            · obtain ⟨c, hcmem, hceq⟩ := List.mem_map.mp hmap
              subst hceq
              have hlegit2 := hlegit
              rw [Bool.or_eq_true] at hlegit2
              push_neg at hlegit2
              refine ⟨rfl, rfl, ?_, ?_, ?_, hself, rfl, ?_⟩
              · simpa [mkCrossInfo] using hft
              · simpa [mkCrossInfo] using Bool.eq_false_iff.mpr hlegit2.1
              · simpa [mkCrossInfo] using Bool.eq_false_iff.mpr hlegit2.2
              · simpa [mkCrossInfo] using hcmem
            · exact ih _ info hrest

theorem edgeLoop_mem (p : Way) (pft : FeatureType) (g : Graph) :
    ∀ (nids : List String) (checked : List String) (info : EdgeCrossInfo),
      info ∈ (edgeLoop p pft g nids checked).1 →
      info.ways.1 = p ∧ info.featureTypes.1 = pft ∧
      getFeatureTypeForCrossingCheck info.ways.2 g = some info.featureTypes.2 ∧
      isLegitCrossing p pft info.ways.2 info.featureTypes.2 g = false ∧
      isLegitCrossing info.ways.2 info.featureTypes.2 p pft g = false ∧
      info.ways.2.id ≠ p.id ∧
      (info.edges.2.1 ≠ info.edges.1.1 ∧ info.edges.2.1 ≠ info.edges.1.2 ∧
        info.edges.2.2 ≠ info.edges.1.1 ∧ info.edges.2.2 ≠ info.edges.1.2) := by
  intro nids
  induction nids with
  | nil => intro checked info hinfo; simp [edgeLoop] at hinfo
  | cons nid1 tail ih =>
    cases tail with
    | nil => intro checked info hinfo; simp [edgeLoop] at hinfo
    | cons nid2 rest =>
      intro checked info hinfo
      rw [show (edgeLoop p pft g (nid1 :: nid2 :: rest) checked).1 =
          (candidateLoop p pft (g.entityNode nid1) (g.entityNode nid2) g
            (treeIntersects (edgeExtent (g.entityNode nid1) (g.entityNode nid2)) g) checked).1 ++
          (edgeLoop p pft g (nid2 :: rest)
            (candidateLoop p pft (g.entityNode nid1) (g.entityNode nid2) g
              (treeIntersects (edgeExtent (g.entityNode nid1) (g.entityNode nid2)) g) checked).2).1
          from by simp [edgeLoop]] at hinfo
      rcases List.mem_append.mp hinfo with hcand | htail
      · obtain ⟨hw1, hft1, hft2, hleg1, hleg2, hid, hedge1, hccmem⟩ :=
          candidateLoop_mem p pft (g.entityNode nid1) (g.entityNode nid2) g _ checked info hcand
        obtain ⟨e1, e2, e3, e4⟩ :=
          crossCoordsLoop_not_endpoint (g.entityNode nid1) (g.entityNode nid2) _ _ _ hccmem
        refine ⟨hw1, hft1, hft2, hleg1, hleg2, hid, ?_, ?_, ?_, ?_⟩ <;>
          rw [hedge1] <;> assumption
      · exact ih _ info htail

theorem findCrossingsByWay_mem (w : Way) (g : Graph) (info : EdgeCrossInfo)
    (h : info ∈ findCrossingsByWay w g) :
    info.ways.1 = w ∧
    getFeatureTypeForCrossingCheck w g = some info.featureTypes.1 ∧
    getFeatureTypeForCrossingCheck info.ways.2 g = some info.featureTypes.2 ∧
    isLegitCrossing w info.featureTypes.1 info.ways.2 info.featureTypes.2 g = false ∧
    isLegitCrossing info.ways.2 info.featureTypes.2 w info.featureTypes.1 g = false ∧
    info.ways.2.id ≠ w.id ∧
    (info.edges.2.1 ≠ info.edges.1.1 ∧ info.edges.2.1 ≠ info.edges.1.2 ∧
      info.edges.2.2 ≠ info.edges.1.1 ∧ info.edges.2.2 ≠ info.edges.1.2) := by
  cases hft : getFeatureTypeForCrossingCheck w g with
  | none =>
    rw [show findCrossingsByWay w g = [] from by simp [findCrossingsByWay, hft]] at h
    simp at h
  | some pft =>
    rw [show findCrossingsByWay w g = (edgeLoop w pft g w.nodes []).1 from by
      simp [findCrossingsByWay, hft]] at h
    obtain ⟨hw1, hft1, hft2, hleg1, hleg2, hid, hne⟩ := edgeLoop_mem w pft g w.nodes [] info h
    subst hft1
    exact ⟨hw1, rfl, hft2, hleg1, hleg2, hid, hne⟩

/-- Claim C2: the intersection finder never reports a candidate edge that
shares an endpoint node id with the primary edge, and consequently no
crossing record emitted by findCrossingsByWay pairs two edges that share a
node id. -/
theorem claim_C2_endpoint_exclusion :
    (∀ (n1 n2 : Node) (way : Way) (g : Graph) (oneOnly : Bool) (c : CrossCoord),
      c ∈ findEdgeToWayCrossCoords n1 n2 way g oneOnly →
      c.edge.1 ≠ n1.id ∧ c.edge.1 ≠ n2.id ∧ c.edge.2 ≠ n1.id ∧ c.edge.2 ≠ n2.id) ∧
    (∀ (w : Way) (g : Graph) (info : EdgeCrossInfo), info ∈ findCrossingsByWay w g →
      info.edges.2.1 ≠ info.edges.1.1 ∧ info.edges.2.1 ≠ info.edges.1.2 ∧
      info.edges.2.2 ≠ info.edges.1.1 ∧ info.edges.2.2 ≠ info.edges.1.2) := by
  constructor
  · intro n1 n2 way g oneOnly c hc
    exact crossCoordsLoop_not_endpoint n1 n2 oneOnly (g.childNodes way) c hc
  · intro w g info hinfo
    obtain ⟨-, -, -, -, -, -, hne⟩ := findCrossingsByWay_mem w g info hinfo
    exact hne

/-- Witness of claim C2 at the concrete example crossing. -/
theorem claim_C2_witness :
    (("b1") : String) ≠ ("a1") ∧ (("b1") : String) ≠ ("a2") ∧
    (("b2") : String) ≠ ("a1") ∧ (("b2") : String) ≠ ("a2") :=
  claim_C2_endpoint_exclusion.1 nodeA1 nodeA2 wayB exampleGraph false
    ⟨(("b1"), ("b2")), (mkRat 0 1, mkRat 0 1)⟩ (by decide)

theorem bridgeXor_legit (w1 w2 : Way) (ft1 ft2 : FeatureType) (g : Graph)
    (h1 : allowsBridge ft1 = true) (h2 : allowsBridge ft2 = true)
    (hne : hasTag (effectiveTags w1 g) ("bridge") ≠ hasTag (effectiveTags w2 g) ("bridge")) :
    isLegitCrossing w1 ft1 w2 ft2 g = true := by
  unfold isLegitCrossing
  cases hb1 : hasTag (effectiveTags w1 g) ("bridge") <;>
    cases hb2 : hasTag (effectiveTags w2 g) ("bridge")
  · exact absurd (hb1.trans hb2.symm) hne
  · simp [isLegitCrossingCore, h1, h2, hb1, hb2]
  · simp [isLegitCrossingCore, h1, h2, hb1, hb2]
  · exact absurd (hb1.trans hb2.symm) hne

/-- Claim C1: a crossing record is emitted only when the legitimacy check is
false in both argument orders, so legitimacy in at least one order
suppresses the pair; when both categories allow bridges while exactly one
side has a non no bridge tag, the check is true in both orders, hence the
pair is suppressed whichever way is the primary one; and conversely a pair
that passes the gate with the check false in both orders is not suppressed:
the intersection walk runs and each of its results is emitted. -/
theorem claim_C1_legitimacy_gate :
    (∀ (w : Way) (g : Graph) (info : EdgeCrossInfo), info ∈ findCrossingsByWay w g →
      isLegitCrossing w info.featureTypes.1 info.ways.2 info.featureTypes.2 g = false ∧
      isLegitCrossing info.ways.2 info.featureTypes.2 w info.featureTypes.1 g = false) ∧
    (∀ (w1 w2 : Way) (ft1 ft2 : FeatureType) (g : Graph),
      allowsBridge ft1 = true → allowsBridge ft2 = true →
      hasTag (effectiveTags w1 g) ("bridge") ≠ hasTag (effectiveTags w2 g) ("bridge") →
      isLegitCrossing w1 ft1 w2 ft2 g = true ∧ isLegitCrossing w2 ft2 w1 ft1 g = true) ∧
    (∀ (w1 w2 : Way) (ft1 ft2 : FeatureType) (g : Graph),
      getFeatureTypeForCrossingCheck w1 g = some ft1 →
      getFeatureTypeForCrossingCheck w2 g = some ft2 →
      allowsBridge ft1 = true → allowsBridge ft2 = true →
      hasTag (effectiveTags w1 g) ("bridge") ≠ hasTag (effectiveTags w2 g) ("bridge") →
      ∀ info ∈ findCrossingsByWay w1 g, info.ways.2 ≠ w2) ∧
    (∀ (p : Way) (pft : FeatureType) (n1 n2 : Node) (g : Graph) (way : Way) (rest : List Way)
      (checked : List String) (wft : FeatureType),
      way.id ∉ checked → way.id ≠ p.id →
      getFeatureTypeForCrossingCheck way g = some wft →
      isLegitCrossing p pft way wft g = false →
      isLegitCrossing way wft p pft g = false →
      (candidateLoop p pft n1 n2 g (way :: rest) checked).1 =
        ((findEdgeToWayCrossCoords n1 n2 way g (oneOnlyB pft wft)).map
          (mkCrossInfo p pft n1 n2 way wft)) ++
        (candidateLoop p pft n1 n2 g rest
          (if oneOnlyB pft wft &&
              !(findEdgeToWayCrossCoords n1 n2 way g (oneOnlyB pft wft)).isEmpty then
            way.id :: checked else checked)).1) := by
  refine ⟨?_, ?_, ?_, ?_⟩
  · intro w g info hinfo
    obtain ⟨-, -, -, hleg1, hleg2, -, -⟩ := findCrossingsByWay_mem w g info hinfo
    exact ⟨hleg1, hleg2⟩
  · intro w1 w2 ft1 ft2 g h1 h2 hne
    exact ⟨bridgeXor_legit w1 w2 ft1 ft2 g h1 h2 hne,
      bridgeXor_legit w2 w1 ft2 ft1 g h2 h1 (fun hc => hne hc.symm)⟩
  · intro w1 w2 ft1 ft2 g hcheck1 hcheck2 h1 h2 hne info hinfo heq
    obtain ⟨-, hft1, hft2, hleg1, -, -, -⟩ := findCrossingsByWay_mem w1 g info hinfo
    have eft1 : info.featureTypes.1 = ft1 :=
      Option.some.inj (hft1.symm.trans hcheck1)
    have eft2 : info.featureTypes.2 = ft2 := by
      rw [heq] at hft2
      exact Option.some.inj (hft2.symm.trans hcheck2)
    rw [heq, eft1, eft2] at hleg1
    rw [bridgeXor_legit w1 w2 ft1 ft2 g h1 h2 hne] at hleg1
    exact Bool.noConfusion hleg1
  · intro p pft n1 n2 g way rest checked wft hchk hself hft hleg1 hleg2
    have hor : (isLegitCrossing p pft way wft g || isLegitCrossing way wft p pft g) = false := by
      rw [hleg1, hleg2]
      rfl
    have hstep : candidateLoop p pft n1 n2 g (way :: rest) checked =
        (((findEdgeToWayCrossCoords n1 n2 way g (oneOnlyB pft wft)).map
            (mkCrossInfo p pft n1 n2 way wft)) ++
          (candidateLoop p pft n1 n2 g rest
            (if oneOnlyB pft wft &&
                !(findEdgeToWayCrossCoords n1 n2 way g (oneOnlyB pft wft)).isEmpty then
              way.id :: checked else checked)).1,
         (candidateLoop p pft n1 n2 g rest
            (if oneOnlyB pft wft &&
                !(findEdgeToWayCrossCoords n1 n2 way g (oneOnlyB pft wft)).isEmpty then
              way.id :: checked else checked)).2) := by
      simp only [candidateLoop, hft]
      rw [if_neg hchk, if_neg hself, if_neg (by simp [hor])]
    rw [hstep]

/-- Witness of claim C1: the example crossing record is emitted only with
both legitimacy orders false, and a bridge carrying highway over a plain one
is legitimate in both orders. -/
theorem claim_C1_witness :
    (isLegitCrossing wayA FeatureType.highway wayB FeatureType.waterway exampleGraph = false ∧
      isLegitCrossing wayB FeatureType.waterway wayA FeatureType.highway exampleGraph = false) ∧
    (isLegitCrossing wayBridge FeatureType.highway wayPlain FeatureType.highway emptyGraph = true ∧
      isLegitCrossing wayPlain FeatureType.highway wayBridge FeatureType.highway emptyGraph = true) :=
  ⟨claim_C1_legitimacy_gate.1 wayA exampleGraph
      ⟨(wayA, wayB), (FeatureType.highway, FeatureType.waterway),
        ((("a1"), ("a2")), (("b1"), ("b2"))), (mkRat 0 1, mkRat 0 1)⟩ (by decide),
    claim_C1_legitimacy_gate.2.1 wayBridge wayPlain FeatureType.highway FeatureType.highway
      emptyGraph (by decide) (by decide) (by decide)⟩

/-- Claim C4: for a highway and waterway pair the connection tag function
offers a ford exactly unless both sides are tunnels, both are bridges, or
either raw highway value is a major road; in those cases it returns none. -/
theorem claim_C4_ford_rules (e1 e2 : Feature)
    (h : (getFeatureTypeForTags e1.tags = some FeatureType.highway ∧
        getFeatureTypeForTags e2.tags = some FeatureType.waterway) ∨
      (getFeatureTypeForTags e1.tags = some FeatureType.waterway ∧
        getFeatureTypeForTags e2.tags = some FeatureType.highway)) :
    tagsForConnectionNodeIfAllowed e1 e2 =
      if (hasTag e1.tags ("tunnel") && hasTag e2.tags ("tunnel")) ||
          (hasTag e1.tags ("bridge") && hasTag e2.tags ("bridge")) ||
          tagValIn e1.tags ("highway") highwaysDisallowingFords ||
          tagValIn e2.tags ("highway") highwaysDisallowingFords then none
      else some [(("ford"), ("yes"))] := by
  rcases h with ⟨h1, h2⟩ | ⟨h1, h2⟩ <;>
    cases htn1 : hasTag e1.tags ("tunnel") <;> cases htn2 : hasTag e2.tags ("tunnel") <;>
    cases hbr1 : hasTag e1.tags ("bridge") <;> cases hbr2 : hasTag e2.tags ("bridge") <;>
    cases hmj1 : tagValIn e1.tags ("highway") highwaysDisallowingFords <;>
    cases hmj2 : tagValIn e2.tags ("highway") highwaysDisallowingFords <;>
    simp [tagsForConnectionNodeIfAllowed, h1, h2, htn1, htn2, hbr1, hbr2, hmj1, hmj2]

/-- Witness of claim C4: a motorway refuses a ford, a residential road gets
one. -/
theorem claim_C4_witness :
    tagsForConnectionNodeIfAllowed featMotorway featStream = none ∧
    tagsForConnectionNodeIfAllowed featStream featResidential = some [(("ford"), ("yes"))] :=
  ⟨(claim_C4_ford_rules featMotorway featStream (Or.inl ⟨by decide, by decide⟩)).trans
      (by decide),
   (claim_C4_ford_rules featStream featResidential (Or.inr ⟨by decide, by decide⟩)).trans
      (by decide)⟩

/-- Claim C8: a way with no feature type of its own takes its first suitably
tagged parent relation for classification, so it enters the crossing check
under the parent category, both as the primary way and as a candidate. -/
theorem claim_C8_parent_substitution (w : Way) (g : Graph) (r : Relation) (ft : FeatureType)
    (hw : getFeatureTypeForTags w.tags = none)
    (hfind : (g.parentRelations w).find?
      (fun rel => (getFeatureTypeForTags rel.tags).isSome) = some r)
    (hr : getFeatureTypeForTags r.tags = some ft) :
    getFeatureWithFeatureTypeTagsForWay w g = Feature.ofRel r ∧
    getFeatureTypeForCrossingCheck w g = some ft ∧
    (∀ info ∈ findCrossingsByWay w g, info.featureTypes.1 = ft) ∧
    (∀ (w0 : Way) (info : EdgeCrossInfo), info ∈ findCrossingsByWay w0 g →
      info.ways.2 = w → info.featureTypes.2 = ft) := by
  have hfeat : getFeatureWithFeatureTypeTagsForWay w g = Feature.ofRel r := by
    simp [getFeatureWithFeatureTypeTagsForWay, hw, hfind]
  have hcheck : getFeatureTypeForCrossingCheck w g = some ft := by
    simp [getFeatureTypeForCrossingCheck, hfeat, Feature.tags, hr]
  refine ⟨hfeat, hcheck, ?_, ?_⟩
  · intro info hinfo
    obtain ⟨-, hforw, -, -, -, -, -⟩ := findCrossingsByWay_mem w g info hinfo
    exact Option.some.inj (hforw.symm.trans hcheck)
  · intro w0 info hinfo heq
    obtain ⟨-, -, hcand, -, -, -, -⟩ := findCrossingsByWay_mem w0 g info hinfo
    rw [heq] at hcand
    exact Option.some.inj (hcand.symm.trans hcheck)

/-- Witness of claim C8 at the concrete untagged way with a building
multipolygon parent. -/
theorem claim_C8_witness :
    getFeatureWithFeatureTypeTagsForWay wayMember relGraph = Feature.ofRel relBuilding ∧
    getFeatureTypeForCrossingCheck wayMember relGraph = some FeatureType.building :=
  ⟨(claim_C8_parent_substitution wayMember relGraph relBuilding FeatureType.building
      (by decide) (by decide) (by decide)).1,
   (claim_C8_parent_substitution wayMember relGraph relBuilding FeatureType.building
      (by decide) (by decide) (by decide)).2.1⟩

/-- Claim C5, counterexample: for the concrete highway to waterway crossing
the emitted issue lists the highway feature first and the waterway feature
second, refuting the statement that a waterway is always placed first. -/
theorem claim_C5_counterexample :
    (validation (Entity.way wayA) exampleGraph).map (fun i => i.entities.map Feature.id) =
      [[("A"), ("B")]] ∧
    getFeatureTypeForCrossingCheck wayA exampleGraph = some FeatureType.highway ∧
    getFeatureTypeForCrossingCheck wayB exampleGraph = some FeatureType.waterway :=
  ⟨by decide, by decide, by decide⟩

/-- Claim C5, amended: the boolean comparator coerces to 0 or 1, never to a
negative number, so the two element sort swaps exactly on a positive result:
a waterway feature always ends second, two features of equal category are
ordered with the smaller display label first, and differing categories
without a waterway are ordered by descending category name. -/
theorem claim_C5_amended :
    (∀ (crossing : EdgeCrossInfo) (g : Graph),
      (createIssue crossing g).entities =
        [getFeatureWithFeatureTypeTagsForWay (sortWays g crossing.ways.1 crossing.ways.2).1 g,
         getFeatureWithFeatureTypeTagsForWay (sortWays g crossing.ways.1 crossing.ways.2).2 g]) ∧
    (∀ (g : Graph) (w1 w2 : Way),
      getFeatureTypeForCrossingCheck w1 g = some FeatureType.waterway →
      getFeatureTypeForCrossingCheck w2 g ≠ some FeatureType.waterway →
      sortWays g w1 w2 = (w2, w1)) ∧
    (∀ (g : Graph) (w1 w2 : Way),
      getFeatureTypeForCrossingCheck w2 g = some FeatureType.waterway →
      getFeatureTypeForCrossingCheck w1 g ≠ some FeatureType.waterway →
      sortWays g w1 w2 = (w1, w2)) ∧
    (∀ (g : Graph) (w1 w2 : Way),
      getFeatureTypeForCrossingCheck w1 g = getFeatureTypeForCrossingCheck w2 g →
      sortWays g w1 w2 = (if strLt w2.label w1.label then (w2, w1) else (w1, w2))) ∧
    (∀ (g : Graph) (w1 w2 : Way) (ft1 ft2 : FeatureType),
      getFeatureTypeForCrossingCheck w1 g = some ft1 →
      getFeatureTypeForCrossingCheck w2 g = some ft2 →
      ft1 ≠ ft2 → ft1 ≠ FeatureType.waterway → ft2 ≠ FeatureType.waterway →
      sortWays g w1 w2 =
        (if strLt (featureTypeName ft1) (featureTypeName ft2) then (w2, w1) else (w1, w2))) := by
  refine ⟨?_, ?_, ?_, ?_, ?_⟩
  · intro crossing g
    rfl
  · intro g w1 w2 h1 h2
    have hne2 : some FeatureType.waterway ≠ getFeatureTypeForCrossingCheck w2 g :=
      fun hc => h2 hc.symm
    simp [sortWays, sortCompareNum, h1, hne2]
  · intro g w1 w2 h2 h1
    simp [sortWays, sortCompareNum, h1, h2]
  · intro g w1 w2 h
    cases hlab : strLt w2.label w1.label <;> simp [sortWays, sortCompareNum, h, hlab]
  · intro g w1 w2 ft1 ft2 h1 h2 hft hw1 hw2
    have hne : getFeatureTypeForCrossingCheck w1 g ≠ getFeatureTypeForCrossingCheck w2 g := by
      rw [h1, h2]
      exact fun hc => hft (Option.some.inj hc)
    have hwa1 : getFeatureTypeForCrossingCheck w1 g ≠ some FeatureType.waterway := by
      rw [h1]
      exact fun hc => hw1 (Option.some.inj hc)
    have hwa2 : getFeatureTypeForCrossingCheck w2 g ≠ some FeatureType.waterway := by
      rw [h2]
      exact fun hc => hw2 (Option.some.inj hc)
    cases hlt : strLt (featureTypeName ft1) (featureTypeName ft2) <;>
      simp [sortWays, sortCompareNum, h1, h2, hft, hw1, hw2, hlt]

/-- Witness of claim C5: the amended ordering applied at the concrete
highway to waterway pair, the waterway staying second. -/
theorem claim_C5_witness :
    sortWays exampleGraph wayA wayB = (wayA, wayB) :=
  claim_C5_amended.2.2.1 exampleGraph wayA wayB (by decide) (by decide)

/-- Claim C6, counterexample: two crossing canals, a same category waterway
pair, produce an issue whose connection tag set is the empty truthy object,
and the connect features fix is offered, refuting the statement that a
connective fix requires a non empty legitimizing tag set. -/
theorem claim_C6_counterexample :
    (validation (Entity.way wayC) canalGraph).map
        (fun i => (i.connectionTags, i.fixes.map Fix.title)) =
      [(some [], [t ("issues.fix.connect_features.title"), t ("issues.fix.use_tunnel.title"),
        t ("issues.fix.reposition_features.title")])] := by
  decide

/-- Claim C6, amended: the connect fix is offered exactly when the
connection tag function returns a non null result, which for same category
waterway and railway pairs is the empty tag set, so those pairs do get a
connective fix carrying no tags; the reposition fix is always the last
fix of every issue. -/
theorem claim_C6_amended :
    (∀ (crossing : EdgeCrossInfo) (g : Graph),
      ((createIssue crossing g).connectionTags.isSome = true ↔
        Fix.mk (t ("issues.fix.connect_features.title")) true ∈ (createIssue crossing g).fixes) ∧
      (createIssue crossing g).fixes.getLast? =
        some (Fix.mk (t ("issues.fix.reposition_features.title")) false)) ∧
    (∀ e1 e2 : Feature,
      getFeatureTypeForTags e1.tags = getFeatureTypeForTags e2.tags →
      (getFeatureTypeForTags e1.tags = some FeatureType.waterway ∨
        getFeatureTypeForTags e1.tags = some FeatureType.railway) →
      tagsForConnectionNodeIfAllowed e1 e2 = some []) := by
  constructor
  · intro crossing g
    cases hct : tagsForConnectionNodeIfAllowed
        (getFeatureWithFeatureTypeTagsForWay (sortWays g crossing.ways.1 crossing.ways.2).1 g)
        (getFeatureWithFeatureTypeTagsForWay (sortWays g crossing.ways.1 crossing.ways.2).2 g)
      with
    | none => simp [createIssue, hct, t]
    | some tags => simp [createIssue, hct, t]
  · intro e1 e2 heq hw
    rcases hw with h | h <;>
      simp [tagsForConnectionNodeIfAllowed, heq, heq.symm.trans h]

/-- Witness of claim C6: the amended same category rule applied at the two
concrete canals. -/
theorem claim_C6_witness :
    tagsForConnectionNodeIfAllowed (Feature.ofWay wayC) (Feature.ofWay wayD) = some [] :=
  claim_C6_amended.2 (Feature.ofWay wayC) (Feature.ofWay wayD) (by decide) (Or.inl (by decide))

theorem replaceNode_findNode_self (g : Graph) (n : Node) :
    (g.replaceNode n).findNode n.id = some n := by
  simp [Graph.replaceNode, Graph.findNode]

theorem actionMergeNodes_findNode_survivor (survivor : String) (rest : List String)
    (loc : ℚ × ℚ) (g : Graph) :
    (actionMergeNodes (survivor :: rest) loc g).findNode survivor =
      some (Node.mk survivor loc ((g.findNode survivor).elim [] Node.tags)) := by
  simp [actionMergeNodes, Graph.findNode]

theorem actionMergeNodes_findNode_rest (survivor : String) (rest : List String)
    (loc : ℚ × ℚ) (g : Graph) (x : String) (hx : x ∈ rest) (hxs : x ≠ survivor) :
    (actionMergeNodes (survivor :: rest) loc g).findNode x = none := by
  unfold actionMergeNodes Graph.findNode
  rw [List.find?_cons_of_neg _ (by
    simp only [decide_eq_true_eq]
    exact fun hc => hxs hc.symm)]
  rw [List.find?_eq_none]
  intro n hn
  obtain ⟨-, hpred⟩ := List.mem_filter.mp hn
  simp only [decide_eq_true_eq] at hpred
  simp only [decide_eq_true_eq]
  intro hid
  exact hpred.2 (hid ▸ hx)

/-- Claim C7: when for both crossing edges the closer endpoint lies within
0.75 distance units of the crossing location, the connect action splits no
edge: the final graph is exactly the merge of the two endpoint nodes with
the new node at the crossing location, after which the new id resolves to a
single node at that location and the two old endpoint ids are gone. -/
theorem claim_C7_merge_within_threshold
    (dist : (ℚ × ℚ) → (ℚ × ℚ) → ℚ) (newId : String) (loc : ℚ × ℚ) (ctags : Tags)
    (e1 e2 : String × String) (g : Graph) (c1 c2 : ClosestInfo)
    (h1 : geoSphericalClosestNode dist
        [(g.replaceNode ⟨newId, loc, ctags⟩).entityNode e1.1,
         (g.replaceNode ⟨newId, loc, ctags⟩).entityNode e1.2] loc = some c1)
    (hd1 : qLt c1.distance (mkRat 3 4) = true)
    (h2 : geoSphericalClosestNode dist
        [(g.replaceNode ⟨newId, loc, ctags⟩).entityNode e2.1,
         (g.replaceNode ⟨newId, loc, ctags⟩).entityNode e2.2] loc = some c2)
    (hd2 : qLt c2.distance (mkRat 3 4) = true)
    (hne1 : c1.node.id ≠ newId) (hne2 : c2.node.id ≠ newId) :
    actionConnectCrossingWays dist newId loc ctags [e1, e2] g =
      actionMergeNodes [newId, c1.node.id, c2.node.id] loc
        (g.replaceNode ⟨newId, loc, ctags⟩) ∧
    (actionConnectCrossingWays dist newId loc ctags [e1, e2] g).findNode newId =
      some ⟨newId, loc, ctags⟩ ∧
    (actionConnectCrossingWays dist newId loc ctags [e1, e2] g).findNode c1.node.id = none ∧
    (actionConnectCrossingWays dist newId loc ctags [e1, e2] g).findNode c2.node.id = none := by
  have heq : actionConnectCrossingWays dist newId loc ctags [e1, e2] g =
      actionMergeNodes [newId, c1.node.id, c2.node.id] loc
        (g.replaceNode ⟨newId, loc, ctags⟩) := by
    unfold actionConnectCrossingWays
    simp only [List.foldl_cons, List.foldl_nil, h1, h2, hd1, hd2, if_true]
    simp
  refine ⟨heq, ?_, ?_, ?_⟩
  · rw [heq, actionMergeNodes_findNode_survivor, replaceNode_findNode_self]
    rfl
  · rw [heq]
    exact actionMergeNodes_findNode_rest newId [c1.node.id, c2.node.id] loc _ c1.node.id
      (by simp) hne1
  · rw [heq]
    exact actionMergeNodes_findNode_rest newId [c1.node.id, c2.node.id] loc _ c2.node.id
      (by simp) hne2

/-- Witness of claim C7 at the concrete merge example: both edges have an
endpoint at squared distance one quarter from the origin, so the action
merges the three nodes. -/
theorem claim_C7_witness :
    actionConnectCrossingWays sqDist ("J") (mkRat 0 1, mkRat 0 1) [(("ford"), ("yes"))]
        [(("p1"), ("p2")), (("q1"), ("q2"))] mergeGraph =
      actionMergeNodes [("J"), ("p1"), ("q1")] (mkRat 0 1, mkRat 0 1)
        (mergeGraph.replaceNode ⟨("J"), (mkRat 0 1, mkRat 0 1), [(("ford"), ("yes"))]⟩) ∧
    (actionConnectCrossingWays sqDist ("J") (mkRat 0 1, mkRat 0 1) [(("ford"), ("yes"))]
        [(("p1"), ("p2")), (("q1"), ("q2"))] mergeGraph).findNode ("J") =
      some ⟨("J"), (mkRat 0 1, mkRat 0 1), [(("ford"), ("yes"))]⟩ ∧
    (actionConnectCrossingWays sqDist ("J") (mkRat 0 1, mkRat 0 1) [(("ford"), ("yes"))]
        [(("p1"), ("p2")), (("q1"), ("q2"))] mergeGraph).findNode ("p1") = none ∧
    (actionConnectCrossingWays sqDist ("J") (mkRat 0 1, mkRat 0 1) [(("ford"), ("yes"))]
        [(("p1"), ("p2")), (("q1"), ("q2"))] mergeGraph).findNode ("q1") = none :=
  claim_C7_merge_within_threshold sqDist ("J") (mkRat 0 1, mkRat 0 1) [(("ford"), ("yes"))]
    (("p1"), ("p2")) (("q1"), ("q2")) mergeGraph ⟨nodeP1, mkRat 1 4⟩ ⟨nodeQ1, mkRat 1 4⟩
    (by decide) (by decide) (by decide) (by decide) (by decide) (by decide)

/-- Claim C9: round trip on the concrete example.  The validation pass over
the highway reports exactly one crossing with the waterway, at the origin,
with ford connection tags and the two crossing edges; applying the connect
action of that fix splices a new junction node into both ways, and re-running
the validation on the updated way reports nothing, the junction node being
excluded by the shared endpoint rule. -/
theorem claim_C9_roundtrip :
    (validation (Entity.way wayA) exampleGraph).map
        (fun i => (i.loc, i.connectionTags, i.infoEdges)) =
      [((mkRat 0 1, mkRat 0 1), some [(("ford"), ("yes"))],
        ((("a1"), ("a2")), (("b1"), ("b2"))))] ∧
    wayAFixed.nodes = [("a1"), ("J"), ("a2")] ∧
    (exampleGraphFixed.findWay ("B")).map Way.nodes = some [("b1"), ("J"), ("b2")] ∧
    validation (Entity.way wayAFixed) exampleGraphFixed = [] :=
  ⟨by decide, by decide, by decide, by decide⟩

theorem countB_append (l1 l2 : List EdgeCrossInfo) (wid : String) :
    countB (l1 ++ l2) wid = countB l1 wid + countB l2 wid :=
  List.countP_append _ _ _

theorem countB_map_ne (cc : List CrossCoord) (p : Way) (pft : FeatureType) (n1 n2 : Node)
    (way : Way) (wft : FeatureType) (wid : String) (hne : way.id ≠ wid) :
    countB (cc.map (mkCrossInfo p pft n1 n2 way wft)) wid = 0 := by
  induction cc with
  | nil => rfl
  | cons c rest ih =>
    simp only [List.map_cons, countB, List.countP_cons] at *
    simp [buildingPairFlag, mkCrossInfo, hne, ih]

theorem countB_map_not_building (cc : List CrossCoord) (p : Way) (pft : FeatureType)
    (n1 n2 : Node) (way : Way) (wft : FeatureType) (wid : String)
    (hone : oneOnlyB pft wft = false) :
    countB (cc.map (mkCrossInfo p pft n1 n2 way wft)) wid = 0 := by
  have hp : decide (pft = FeatureType.building) = false := by
    cases hb : decide (pft = FeatureType.building)
    · rfl
    · rw [oneOnlyB, hb] at hone
      simp at hone
  have hw : decide (wft = FeatureType.building) = false := by
    cases hb : decide (wft = FeatureType.building)
    · rfl
    · rw [oneOnlyB, hb] at hone
      simp at hone
  induction cc with
  | nil => rfl
  | cons c rest ih =>
    simp only [List.map_cons, countB, List.countP_cons] at *
    simp [buildingPairFlag, mkCrossInfo, hp, hw, ih]

theorem countB_map_le (cc : List CrossCoord) (p : Way) (pft : FeatureType) (n1 n2 : Node)
    (way : Way) (wft : FeatureType) (wid : String) :
    countB (cc.map (mkCrossInfo p pft n1 n2 way wft)) wid ≤ cc.length := by
  calc countB (cc.map (mkCrossInfo p pft n1 n2 way wft)) wid
      ≤ (cc.map (mkCrossInfo p pft n1 n2 way wft)).length := List.countP_le_length _
    _ = cc.length := List.length_map _ _

theorem candidateLoop_count (p : Way) (pft : FeatureType) (n1 n2 : Node) (g : Graph)
    (wid : String) :
    ∀ (cands : List Way) (checked : List String),
      (wid ∈ checked →
        countB (candidateLoop p pft n1 n2 g cands checked).1 wid = 0 ∧
        wid ∈ (candidateLoop p pft n1 n2 g cands checked).2) ∧
      countB (candidateLoop p pft n1 n2 g cands checked).1 wid ≤ 1 ∧
      (1 ≤ countB (candidateLoop p pft n1 n2 g cands checked).1 wid →
        wid ∈ (candidateLoop p pft n1 n2 g cands checked).2) := by
  intro cands
  induction cands with
  | nil =>
    intro checked
    refine ⟨fun hw => ⟨rfl, hw⟩, by simp [candidateLoop, countB], fun hge => ?_⟩
    simp [candidateLoop, countB] at hge
  | cons way rest ih =>
    intro checked
    by_cases hchk : way.id ∈ checked
    · have hstep : candidateLoop p pft n1 n2 g (way :: rest) checked =
          candidateLoop p pft n1 n2 g rest checked := by
        simp [candidateLoop, hchk]
      rw [hstep]
      exact ih checked
    · by_cases hself : way.id = p.id
      · have hstep : candidateLoop p pft n1 n2 g (way :: rest) checked =
            candidateLoop p pft n1 n2 g rest checked := by
          simp [candidateLoop, hchk, hself]
        rw [hstep]
        exact ih checked
      · cases hft : getFeatureTypeForCrossingCheck way g with
        | none =>
          have hstep : candidateLoop p pft n1 n2 g (way :: rest) checked =
              candidateLoop p pft n1 n2 g rest checked := by
            simp [candidateLoop, hchk, hself, hft]
          rw [hstep]
          exact ih checked
        | some wft =>
          by_cases hlegit : (isLegitCrossing p pft way wft g ||
              isLegitCrossing way wft p pft g) = true
          · have hstep : candidateLoop p pft n1 n2 g (way :: rest) checked =
                candidateLoop p pft n1 n2 g rest checked := by
              simp only [candidateLoop, hft]
              rw [if_neg hchk, if_neg hself, if_pos hlegit]
            rw [hstep]
            exact ih checked
          · have hstep : candidateLoop p pft n1 n2 g (way :: rest) checked =
                (((findEdgeToWayCrossCoords n1 n2 way g (oneOnlyB pft wft)).map
                    (mkCrossInfo p pft n1 n2 way wft)) ++
                  (candidateLoop p pft n1 n2 g rest
                    (if oneOnlyB pft wft &&
                        !(findEdgeToWayCrossCoords n1 n2 way g (oneOnlyB pft wft)).isEmpty then
                      way.id :: checked else checked)).1,
                 (candidateLoop p pft n1 n2 g rest
                    (if oneOnlyB pft wft &&
                        !(findEdgeToWayCrossCoords n1 n2 way g (oneOnlyB pft wft)).isEmpty then
                      way.id :: checked else checked)).2) := by
              simp only [candidateLoop, hft]
              rw [if_neg hchk, if_neg hself, if_neg hlegit]
            rw [hstep]
            refine ⟨?_, ?_, ?_⟩
            · intro hw
              have hidne : way.id ≠ wid := fun hc => hchk (hc.symm ▸ hw)
              have hw2 : wid ∈ (if oneOnlyB pft wft &&
                  !(findEdgeToWayCrossCoords n1 n2 way g (oneOnlyB pft wft)).isEmpty then
                    way.id :: checked else checked) := by
                split
                · exact List.mem_cons_of_mem _ hw
                · exact hw
              obtain ⟨hz, hm⟩ := (ih _).1 hw2
              constructor
              · rw [countB_append, countB_map_ne _ _ _ _ _ _ _ _ hidne, hz]
              · exact hm
            · by_cases hid : way.id = wid
              · rcases Bool.dichotomy (oneOnlyB pft wft) with hone | hone
                · rw [countB_append, countB_map_not_building _ _ _ _ _ _ _ _ hone]
                  simpa using (ih _).2.1
                · rcases Bool.dichotomy (findEdgeToWayCrossCoords n1 n2 way g
                      (oneOnlyB pft wft)).isEmpty with hcc | hcc
                  · have hw2 : wid ∈ (if oneOnlyB pft wft &&
                        !(findEdgeToWayCrossCoords n1 n2 way g (oneOnlyB pft wft)).isEmpty then
                          way.id :: checked else checked) := by
                      rw [hcc, hone]
                      simp [hid]
                    obtain ⟨hz, -⟩ := (ih _).1 hw2
                    rw [countB_append, hz]
                    have hlen : countB ((findEdgeToWayCrossCoords n1 n2 way g
                        (oneOnlyB pft wft)).map (mkCrossInfo p pft n1 n2 way wft)) wid ≤
                        (findEdgeToWayCrossCoords n1 n2 way g (oneOnlyB pft wft)).length :=
                      countB_map_le _ _ _ _ _ _ _ _
                    have hlen2 : (findEdgeToWayCrossCoords n1 n2 way g
                        (oneOnlyB pft wft)).length ≤ 1 := by
                      rw [hone]
                      simpa [findEdgeToWayCrossCoords] using
                        crossCoordsLoop_length_oneOnly n1 n2 (g.childNodes way)
                    omega
                  · have hccnil : findEdgeToWayCrossCoords n1 n2 way g (oneOnlyB pft wft) = [] :=
                      List.isEmpty_iff.mp hcc
                    rw [countB_append, hccnil]
                    simpa [countB] using (ih _).2.1
              · rw [countB_append, countB_map_ne _ _ _ _ _ _ _ _ hid]
                simpa using (ih _).2.1
            · intro hge
              by_cases hid : way.id = wid
              · rcases Bool.dichotomy (oneOnlyB pft wft) with hone | hone
                · rw [countB_append, countB_map_not_building _ _ _ _ _ _ _ _ hone,
                    Nat.zero_add] at hge
                  exact (ih _).2.2 hge
                · rcases Bool.dichotomy (findEdgeToWayCrossCoords n1 n2 way g
                      (oneOnlyB pft wft)).isEmpty with hcc | hcc
                  · have hw2 : wid ∈ (if oneOnlyB pft wft &&
                        !(findEdgeToWayCrossCoords n1 n2 way g (oneOnlyB pft wft)).isEmpty then
                          way.id :: checked else checked) := by
                      rw [hcc, hone]
                      simp [hid]
                    exact ((ih _).1 hw2).2
                  · have hccnil : findEdgeToWayCrossCoords n1 n2 way g (oneOnlyB pft wft) = [] :=
                      List.isEmpty_iff.mp hcc
                    have hz : countB ((findEdgeToWayCrossCoords n1 n2 way g
                        (oneOnlyB pft wft)).map (mkCrossInfo p pft n1 n2 way wft)) wid = 0 := by
                      rw [hccnil]
                      rfl
                    rw [countB_append, hz, Nat.zero_add] at hge
                    exact (ih _).2.2 hge
              · rw [countB_append, countB_map_ne _ _ _ _ _ _ _ _ hid, Nat.zero_add] at hge
                exact (ih _).2.2 hge

theorem edgeLoop_count (p : Way) (pft : FeatureType) (g : Graph) (wid : String) :
    ∀ (nids : List String) (checked : List String),
      (wid ∈ checked →
        countB (edgeLoop p pft g nids checked).1 wid = 0 ∧
        wid ∈ (edgeLoop p pft g nids checked).2) ∧
      countB (edgeLoop p pft g nids checked).1 wid ≤ 1 ∧
      (1 ≤ countB (edgeLoop p pft g nids checked).1 wid →
        wid ∈ (edgeLoop p pft g nids checked).2) := by
  intro nids
  induction nids with
  | nil =>
    intro checked
    exact ⟨fun hw => ⟨rfl, hw⟩, by simp [edgeLoop, countB], by simp [edgeLoop, countB]⟩
  | cons nid1 tail ih =>
    cases tail with
    | nil =>
      intro checked
      exact ⟨fun hw => ⟨rfl, hw⟩, by simp [edgeLoop, countB], by simp [edgeLoop, countB]⟩
    | cons nid2 rest =>
      intro checked
      have hstep : edgeLoop p pft g (nid1 :: nid2 :: rest) checked =
          ((candidateLoop p pft (g.entityNode nid1) (g.entityNode nid2) g
              (treeIntersects (edgeExtent (g.entityNode nid1) (g.entityNode nid2)) g)
              checked).1 ++
            (edgeLoop p pft g (nid2 :: rest)
              (candidateLoop p pft (g.entityNode nid1) (g.entityNode nid2) g
                (treeIntersects (edgeExtent (g.entityNode nid1) (g.entityNode nid2)) g)
                checked).2).1,
           (edgeLoop p pft g (nid2 :: rest)
              (candidateLoop p pft (g.entityNode nid1) (g.entityNode nid2) g
                (treeIntersects (edgeExtent (g.entityNode nid1) (g.entityNode nid2)) g)
                checked).2).2) := by
        simp [edgeLoop]
      rw [hstep]
      obtain ⟨ca, cb, cc⟩ := candidateLoop_count p pft (g.entityNode nid1) (g.entityNode nid2) g
        wid (treeIntersects (edgeExtent (g.entityNode nid1) (g.entityNode nid2)) g) checked
      refine ⟨?_, ?_, ?_⟩
      · intro hw
        obtain ⟨hz1, hm1⟩ := ca hw
        obtain ⟨hz2, hm2⟩ := (ih _).1 hm1
        exact ⟨by rw [countB_append, hz1, hz2], hm2⟩
      · rcases Nat.lt_or_ge (countB (candidateLoop p pft (g.entityNode nid1) (g.entityNode nid2) g
            (treeIntersects (edgeExtent (g.entityNode nid1) (g.entityNode nid2)) g)
            checked).1 wid) 1 with h0 | h1
        · have hz1 : countB (candidateLoop p pft (g.entityNode nid1) (g.entityNode nid2) g
              (treeIntersects (edgeExtent (g.entityNode nid1) (g.entityNode nid2)) g)
              checked).1 wid = 0 := Nat.lt_one_iff.mp h0
          rw [countB_append, hz1, Nat.zero_add]
          exact (ih _).2.1
        · obtain ⟨hz2, -⟩ := (ih _).1 (cc h1)
          rw [countB_append, hz2]
          omega
      · intro hge
        rw [countB_append] at hge
        rcases Nat.lt_or_ge (countB (candidateLoop p pft (g.entityNode nid1) (g.entityNode nid2)
            g (treeIntersects (edgeExtent (g.entityNode nid1) (g.entityNode nid2)) g)
            checked).1 wid) 1 with h0 | h1
        · have hz1 := Nat.lt_one_iff.mp h0
          rw [hz1, Nat.zero_add] at hge
          exact (ih _).2.2 hge
        · exact ((ih _).1 (cc h1)).2

/-- Claim C3: when either side of a pair classifies as building, the whole
detection pass emits at most one crossing record for the unordered pair of
the primary way with any given candidate way id; and without building
involvement the per edge intersection walk reports every qualifying
intersection, one record per distinct crossing. -/
theorem claim_C3_one_issue_per_building_pair :
    (∀ (w : Way) (g : Graph) (wid : String), countB (findCrossingsByWay w g) wid ≤ 1) ∧
    (∀ (n1 n2 : Node) (way : Way) (g : Graph),
      findEdgeToWayCrossCoords n1 n2 way g false =
        allQualifyingCrossCoords n1 n2 (g.childNodes way)) := by
  constructor
  · intro w g wid
    cases hft : getFeatureTypeForCrossingCheck w g with
    | none =>
      rw [show findCrossingsByWay w g = [] from by simp [findCrossingsByWay, hft]]
      exact Nat.zero_le 1
    | some pft =>
      rw [show findCrossingsByWay w g = (edgeLoop w pft g w.nodes []).1 from by
        simp [findCrossingsByWay, hft]]
      exact (edgeLoop_count w pft g wid w.nodes []).2.1
  · intro n1 n2 way g
    exact crossCoordsLoop_false_complete n1 n2 (g.childNodes way)

end CrossingWays
